import Mathlib

/-!
Shallow embedding of the third-person orbit-camera / player-movement
controller in `src/main.rs` (a Bevy 0.1 app).  `f32` values are modelled as
real numbers; the glam vector/quaternion types are modelled componentwise.
The two per-frame systems `process_mouse_events` and `update_player` are
embedded as pure state transformers over a `World` record holding the single
player's components and the camera entities' component tables.
-/

noncomputable section

/-- Model of glam `Vec2` (two `f32` components). -/
@[ext]
structure Vec2 where
  x : ℝ
  y : ℝ

/-- Model of glam `Vec3`. -/
@[ext]
structure Vec3 where
  x : ℝ
  y : ℝ
  z : ℝ

/-- Model of glam `Vec4`. -/
structure Vec4 where
  x : ℝ
  y : ℝ
  z : ℝ
  w : ℝ

namespace Vec2

/-- `Vec2::zero()`. -/
def zero : Vec2 := ⟨0, 0⟩

/-- Componentwise addition. -/
def add (a b : Vec2) : Vec2 := ⟨a.x + b.x, a.y + b.y⟩

/-- `Vec2 * f32` scalar multiplication (as in `movement *= dt * move_speed`). -/
def scale (v : Vec2) (s : ℝ) : Vec2 := ⟨v.x * s, v.y * s⟩

/-- `Vec2::dot`. -/
def dot (a b : Vec2) : ℝ := a.x * b.x + a.y * b.y

/-- `Vec2::length()`: square root of the dot product with itself. -/
def length (v : Vec2) : ℝ := Real.sqrt (v.dot v)

/-- glam `Vec2::normalize(self) -> Vec2`: returns `self * (1/length)`.
It consumes `self` by value and returns a NEW vector; it does not mutate
in place. -/
def normalize (v : Vec2) : Vec2 := v.scale (1 / v.length)

end Vec2

namespace Vec3

/-- `Vec3::zero()`. -/
def zero : Vec3 := ⟨0, 0, 0⟩

/-- Componentwise addition (`translation.0 += ...`). -/
def add (a b : Vec3) : Vec3 := ⟨a.x + b.x, a.y + b.y, a.z + b.z⟩

/-- Componentwise subtraction. -/
def sub (a b : Vec3) : Vec3 := ⟨a.x - b.x, a.y - b.y, a.z - b.z⟩

/-- Componentwise negation (`-transform.value.x_axis().truncate()`). -/
def neg (a : Vec3) : Vec3 := ⟨-a.x, -a.y, -a.z⟩

/-- `Vec3 * f32` scalar multiplication. -/
def scale (v : Vec3) (s : ℝ) : Vec3 := ⟨v.x * s, v.y * s, v.z * s⟩

/-- `Vec3::dot`. -/
def dot (a b : Vec3) : ℝ := a.x * b.x + a.y * b.y + a.z * b.z

/-- `Vec3::length()`. -/
def length (v : Vec3) : ℝ := Real.sqrt (v.dot v)

/-- glam `Vec3::normalize`: `self * (1/length)`. -/
def normalize (v : Vec3) : Vec3 := v.scale (1 / v.length)

/-- `Vec3::cross`. -/
def cross (a b : Vec3) : Vec3 :=
  ⟨a.y * b.z - a.z * b.y, a.z * b.x - a.x * b.z, a.x * b.y - a.y * b.x⟩

end Vec3

namespace Vec4

/-- glam `Vec4::truncate(self) -> Vec3`: drops the homogeneous `w`
component, keeping `x`, `y` (the vertical component) and `z`. -/
def truncate (v : Vec4) : Vec3 := ⟨v.x, v.y, v.z⟩

end Vec4

/-- Model of glam `Quat` (x, y, z, w). -/
structure Quat where
  x : ℝ
  y : ℝ
  z : ℝ
  w : ℝ

namespace Quat

/-- glam `Quat::from_rotation_y(angle)`: quaternion for a rotation of
`angle` radians about the vertical axis. -/
def fromRotationY (angle : ℝ) : Quat :=
  ⟨0, Real.sin (angle / 2), 0, Real.cos (angle / 2)⟩

end Quat

/-- Model of glam `Mat4` (the `value` of a Bevy 0.1 `Transform`), stored as
its four column vectors, as glam does. -/
structure Mat4 where
  xAxis : Vec4
  yAxis : Vec4
  zAxis : Vec4
  wAxis : Vec4

/-- The identity matrix (the `Transform` of a freshly spawned entity). -/
def Mat4.identity : Mat4 :=
  ⟨⟨1, 0, 0, 0⟩, ⟨0, 1, 0, 0⟩, ⟨0, 0, 1, 0⟩, ⟨0, 0, 0, 1⟩⟩

/-- Quaternion from the three (assumed orthonormal) rotation axes of a
matrix; the DirectXMath-style branching conversion used by glam's
`Quat::from_rotation_mat3` / `Mat4::to_scale_rotation_translation`. -/
def Quat.fromRotationAxes (xa ya za : Vec3) : Quat :=
  if za.z ≤ 0 then
    let dif10 := ya.y - xa.x
    let omm22 := 1 - za.z
    if dif10 ≤ 0 then
      let fourXSq := omm22 - dif10
      let inv4x := (1 / 2) / Real.sqrt fourXSq
      ⟨fourXSq * inv4x, (xa.y + ya.x) * inv4x, (xa.z + za.x) * inv4x,
        (ya.z - za.y) * inv4x⟩
    else
      let fourYSq := omm22 + dif10
      let inv4y := (1 / 2) / Real.sqrt fourYSq
      ⟨(xa.y + ya.x) * inv4y, fourYSq * inv4y, (ya.z + za.y) * inv4y,
        (za.x - xa.z) * inv4y⟩
  else
    let sum10 := ya.y + xa.x
    let opm22 := 1 + za.z
    if sum10 ≤ 0 then
      let fourZSq := opm22 - sum10
      let inv4z := (1 / 2) / Real.sqrt fourZSq
      ⟨(xa.z + za.x) * inv4z, (ya.z + za.y) * inv4z, fourZSq * inv4z,
        (xa.y - ya.x) * inv4z⟩
    else
      let fourWSq := opm22 + sum10
      let inv4w := (1 / 2) / Real.sqrt fourWSq
      ⟨(ya.z - za.y) * inv4w, (za.x - xa.z) * inv4w, (xa.y - ya.x) * inv4w,
        fourWSq * inv4w⟩

/-- Models line 153-154: `Mat4::face_toward(eye, dir, up)` (build an
orthonormal basis facing from `eye` toward `dir`) followed by
`.to_scale_rotation_translation().1`, which extracts the rotation
quaternion; for the orthonormal basis `face_toward` produces, the scale
factors extracted alongside are 1, so the rotation is the quaternion of
the basis axes themselves. Only this rotation component is applied by the
source. -/
def faceTowardRotation (eye dir up : Vec3) : Quat :=
  let forward := (eye.sub dir).normalize
  let right := (up.cross forward).normalize
  let upOrtho := forward.cross right
  Quat.fromRotationAxes right upOrtho forward

/-- The `MMOPlayer` component: orbit state owned by the player entity.
Entities are modelled by their ids (`Nat`). -/
structure MMOPlayer where
  yaw : ℝ
  camera_distance : ℝ
  camera_pitch : ℝ
  camera_entity : Option Nat

/-- Rust `f32::to_radians` (used for `1f32.to_radians()` etc.). -/
def toRadians (deg : ℝ) : ℝ := deg * (Real.pi / 180)

/-- The `MMOPlayer::default()` impl: yaw 0, distance 20, pitch 30 degrees,
no camera wired yet. -/
def MMOPlayer.default : MMOPlayer :=
  { yaw := 0
    camera_distance := 20
    camera_pitch := toRadians 30
    camera_entity := none }

/-- A `MouseMotion` event carrying a 2D delta. -/
structure MouseMotion where
  delta : Vec2

/-- A `MouseWheel` event; only its vertical scroll amount `y` is read. -/
structure MouseWheel where
  y : ℝ

/-- Keyboard state for the four movement keys, as answered by
`keyboard_input.pressed(..)`. -/
structure Keys where
  keyW : Bool
  keyS : Bool
  keyA : Bool
  keyD : Bool

/-- The per-frame world acted on by the two systems: the player entity's
components (its `MMOPlayer`, `Translation`, read-only `Transform`, and
`Rotation`) and the component tables the camera query can resolve
(`Translation` and `Rotation` keyed by entity id; `none` models a failed
`get_mut`). -/
structure World where
  player : MMOPlayer
  playerTranslation : Vec3
  playerTransform : Mat4
  playerRotation : Quat
  camTranslation : Nat → Option Vec3
  camRotation : Nat → Option Quat

/-- Lines 99-102: `let mut look = Vec2::zero(); for event in ... { look =
event.delta }` — each queued motion event overwrites `look`, so the last
event of the frame wins and zero events leave it at zero. -/
def aggregatedLook (motion : List MouseMotion) : Vec2 :=
  motion.foldl (fun _ event => event.delta) Vec2.zero

/-- Lines 104-107: likewise the last queued wheel event's `y` wins. -/
def aggregatedZoom (wheel : List MouseWheel) : ℝ :=
  wheel.foldl (fun _ event => event.y) 0

/-- `zoom_sense` (line 109). -/
def zoom_sense : ℝ := 10
/-- `look_sense` (line 110). -/
def look_sense : ℝ := 1
/-- `move_speed` (line 133). -/
def move_speed : ℝ := 10

/-- The `process_mouse_events` system (lines 92-117): reduce this frame's
queued motion/wheel events to a last-wins `look` and `zoom_delta`, then for
the player integrate yaw, camera pitch and camera distance.  `dt` is
`time.delta_seconds`; `motion` and `wheel` are the events the persistent
event readers yield this frame. -/
def process_mouse_events (dt : ℝ) (motion : List MouseMotion)
    (wheel : List MouseWheel) (world : World) : World :=
  let look := aggregatedLook motion
  let zoom_delta := aggregatedZoom wheel
  let player := world.player
  { world with
    player :=
      { player with
        yaw := player.yaw + look.x * dt
        camera_pitch := player.camera_pitch - look.y * dt * look_sense
        camera_distance :=
          player.camera_distance - zoom_delta * dt * zoom_sense } }

/-- Lines 125-129: build the 2D movement intent, each pressed key adding
±1 to its axis (W/S on y, D/A on x). -/
def movementIntent (keys : Keys) : Vec2 :=
  let movement := Vec2.zero
  let movement := if keys.keyW then { movement with y := movement.y + 1 } else movement
  let movement := if keys.keyS then { movement with y := movement.y - 1 } else movement
  let movement := if keys.keyD then { movement with x := movement.x + 1 } else movement
  let movement := if keys.keyA then { movement with x := movement.x - 1 } else movement
  movement

/-- Lines 125-134: the scaled movement vector.  Line 131 reads
`if movement != Vec2::zero() { movement.normalize(); }`: glam's
`Vec2::normalize` takes `self` BY VALUE and returns a new vector, so the
statement computes a normalized copy and immediately discards it —
`movement` itself is left unchanged.  The embedding therefore applies no
normalization, then scales by `dt * move_speed` (line 134). -/
def scaledMovement (dt : ℝ) (keys : Keys) : Vec2 :=
  (movementIntent keys).scale (dt * move_speed)

/-- Line 137: clamp the pitch to [1°, 179°] via `.max(..).min(..)`. -/
def clampPitch (pitch : ℝ) : ℝ := min (max pitch (toRadians 1)) (toRadians 179)

/-- Line 138: clamp the distance to [5, 30] via `.max(5.).min(30.)`. -/
def clampDistance (dist : ℝ) : ℝ := min (max dist 5) 30

/-- Lines 140-143: project the scaled intent on the transform's z and
(negated) x basis columns, truncated from `Vec4` to `Vec3` (dropping `w`),
and add to the translation. -/
def movedTranslation (dt : ℝ) (keys : Keys) (transform : Mat4)
    (translation : Vec3) : Vec3 :=
  let movement := scaledMovement dt keys
  let fwd := transform.zAxis.truncate.scale movement.y
  let right := transform.xAxis.truncate.neg.scale movement.x
  translation.add (fwd.add right)

/-- Line 147: the camera's local position, computed from the (already
clamped) pitch and distance. -/
def camPos (pitch dist : ℝ) : Vec3 :=
  (Vec3.normalize ⟨0, Real.cos pitch, -Real.sin pitch⟩).scale dist

/-- The `update_player` system (lines 119-158) for the player entity:
clamp pitch and distance, apply keyboard movement to the translation,
write the pure-yaw rotation, and, when a camera entity is wired and its
components resolve, write the orbit camera's local translation and
look-at rotation.  Each of the two camera `get_mut` lookups is handled
independently by its own `if let Ok(..)`; a failed lookup leaves that
component table untouched. -/
def update_player (dt : ℝ) (keys : Keys) (world : World) : World :=
  let player := world.player
  let pitch := clampPitch player.camera_pitch
  let dist := clampDistance player.camera_distance
  let translation := movedTranslation dt keys world.playerTransform world.playerTranslation
  let rotation := Quat.fromRotationY (-player.yaw)
  let player := { player with camera_pitch := pitch, camera_distance := dist }
  let base := { world with
    player := player
    playerTranslation := translation
    playerRotation := rotation }
  match player.camera_entity with
  | none => base
  | some cameraEntity =>
    let pos := camPos pitch dist
    let camT :=
      match world.camTranslation cameraEntity with
      | some _ => fun i => if i = cameraEntity then some pos else world.camTranslation i
      | none => world.camTranslation
    let camR :=
      match world.camRotation cameraEntity with
      | some _ => fun i =>
          if i = cameraEntity then
            some (faceTowardRotation pos Vec3.zero ⟨0, 1, 0⟩)
          else world.camRotation i
      | none => world.camRotation
    { base with camTranslation := camT, camRotation := camR }

/-- One frame's worth of input for the two systems. -/
structure FrameInput where
  dt : ℝ
  motion : List MouseMotion
  wheel : List MouseWheel
  keys : Keys

/-- One full frame tick: the scheduler runs `process_mouse_events` then
`update_player`. -/
def frameStep (world : World) (input : FrameInput) : World :=
  update_player input.dt input.keys
    (process_mouse_events input.dt input.motion input.wheel world)

/-! Concrete worlds and inputs used as test points. -/

/-- No movement key pressed. -/
def noKeys : Keys := ⟨false, false, false, false⟩

/-- All four movement keys pressed (both opposing pairs). -/
def allKeys : Keys := ⟨true, true, true, true⟩

/-- W and D pressed together (two orthogonal movement keys). -/
def keysWD : Keys := ⟨true, false, false, true⟩

/-- Only W pressed. -/
def keysWOnly : Keys := ⟨true, false, false, false⟩

/-- The world right after `setup`: camera spawned as entity 0 and wired into
the player's `MMOPlayer`, player at the origin with an identity transform. -/
def idWorld : World :=
  { player := { MMOPlayer.default with camera_entity := some 0 }
    playerTranslation := Vec3.zero
    playerTransform := Mat4.identity
    playerRotation := ⟨0, 0, 0, 1⟩
    camTranslation := fun _ => some Vec3.zero
    camRotation := fun _ => some ⟨0, 0, 0, 1⟩ }

/-- A world whose player still has the default (unwired) `MMOPlayer`, i.e.
`camera_entity = none`. -/
def unwiredWorld : World := { idWorld with player := MMOPlayer.default }

/-- A world whose player transform is pitched a quarter turn, so the
transform's z basis column points straight up: `z_axis = (0, 1, 0, 0)`. -/
def pitchedWorld : World :=
  { idWorld with playerTransform :=
      ⟨⟨1, 0, 0, 0⟩, ⟨0, 0, 1, 0⟩, ⟨0, 1, 0, 0⟩, ⟨0, 0, 0, 1⟩⟩ }

/-- A frame with dt = 1, no queued events and no keys pressed. -/
def idleInput : FrameInput := ⟨1, [], [], noKeys⟩

/-! Helper lemmas about the shape of `update_player`'s output. -/

theorem update_player_pitch (dt : ℝ) (keys : Keys) (w : World) :
    (update_player dt keys w).player.camera_pitch
      = clampPitch w.player.camera_pitch := by
  cases hE : w.player.camera_entity <;> simp [update_player, hE]

theorem update_player_distance (dt : ℝ) (keys : Keys) (w : World) :
    (update_player dt keys w).player.camera_distance
      = clampDistance w.player.camera_distance := by
  cases hE : w.player.camera_entity <;> simp [update_player, hE]

theorem update_player_yaw (dt : ℝ) (keys : Keys) (w : World) :
    (update_player dt keys w).player.yaw = w.player.yaw := by
  cases hE : w.player.camera_entity <;> simp [update_player, hE]

theorem update_player_camera_entity (dt : ℝ) (keys : Keys) (w : World) :
    (update_player dt keys w).player.camera_entity = w.player.camera_entity := by
  cases hE : w.player.camera_entity <;> simp [update_player, hE]

theorem update_player_translation (dt : ℝ) (keys : Keys) (w : World) :
    (update_player dt keys w).playerTranslation
      = movedTranslation dt keys w.playerTransform w.playerTranslation := by
  cases hE : w.player.camera_entity <;> simp [update_player, hE]

theorem update_player_rotation (dt : ℝ) (keys : Keys) (w : World) :
    (update_player dt keys w).playerRotation
      = Quat.fromRotationY (-w.player.yaw) := by
  cases hE : w.player.camera_entity <;> simp [update_player, hE]

theorem clampPitch_mem (p : ℝ) :
    toRadians 1 ≤ clampPitch p ∧ clampPitch p ≤ toRadians 179 := by
  have hmono : toRadians 1 ≤ toRadians 179 := by
    unfold toRadians
    have hpi : (0:ℝ) ≤ Real.pi / 180 := by positivity
    nlinarith
  exact ⟨le_min (le_max_right _ _) hmono, min_le_right _ _⟩

theorem clampDistance_mem (d : ℝ) :
    5 ≤ clampDistance d ∧ clampDistance d ≤ 30 := by
  constructor
  · exact le_min (le_max_right _ _) (by norm_num)
  · exact min_le_right _ _

/-! The claims. -/

/-- C4: Last-event-wins aggregation — with N ≥ 1 queued motion events the
aggregated look delta equals the last event's delta dN (earlier events are
discarded, not summed), with zero events it is zero, and the same holds for
the scroll queue and `zoom_delta`. -/
theorem lastEventWins :
    (∀ (ms : List MouseMotion) (m : MouseMotion),
      aggregatedLook (ms ++ [m]) = m.delta) ∧
    aggregatedLook [] = Vec2.zero ∧
    (∀ (ws : List MouseWheel) (wh : MouseWheel),
      aggregatedZoom (ws ++ [wh]) = wh.y) ∧
    aggregatedZoom [] = 0 := by
  refine ⟨fun ms m => ?_, rfl, fun ws wh => ?_, rfl⟩
  · simp [aggregatedLook, List.foldl_append]
  · simp [aggregatedZoom, List.foldl_append]

/-- C1: Clamp invariant — after every `update_player` step, and hence after
any nonempty sequence of whole frames (each running `process_mouse_events`
then `update_player`) from any start state, the player's `camera_pitch` lies
in [1°, 179°] (in radians) and `camera_distance` lies in [5, 30]. -/
theorem clampInvariant :
    (∀ (dt : ℝ) (keys : Keys) (w : World),
      (toRadians 1 ≤ (update_player dt keys w).player.camera_pitch ∧
        (update_player dt keys w).player.camera_pitch ≤ toRadians 179) ∧
      (5 ≤ (update_player dt keys w).player.camera_distance ∧
        (update_player dt keys w).player.camera_distance ≤ 30)) ∧
    (∀ (w : World) (inputs : List FrameInput), inputs ≠ [] →
      (toRadians 1 ≤ (inputs.foldl frameStep w).player.camera_pitch ∧
        (inputs.foldl frameStep w).player.camera_pitch ≤ toRadians 179) ∧
      (5 ≤ (inputs.foldl frameStep w).player.camera_distance ∧
        (inputs.foldl frameStep w).player.camera_distance ≤ 30)) := by
  have hstep : ∀ (dt : ℝ) (keys : Keys) (w : World),
      (toRadians 1 ≤ (update_player dt keys w).player.camera_pitch ∧
        (update_player dt keys w).player.camera_pitch ≤ toRadians 179) ∧
      (5 ≤ (update_player dt keys w).player.camera_distance ∧
        (update_player dt keys w).player.camera_distance ≤ 30) := by
    intro dt keys w
    rw [update_player_pitch, update_player_distance]
    exact ⟨clampPitch_mem _, clampDistance_mem _⟩
  refine ⟨hstep, fun w inputs h => ?_⟩
  induction inputs using List.reverseRecOn with
  | nil => exact absurd rfl h
  | append_singleton L b _ =>
    rw [List.foldl_append]
    exact hstep b.dt b.keys (process_mouse_events b.dt b.motion b.wheel (L.foldl frameStep w))

/-- C1 witness: one idle frame from the freshly-set-up world satisfies the
clamp invariant. -/
theorem clampInvariant_witness :
    ([idleInput] : List FrameInput) ≠ [] ∧
    ((toRadians 1 ≤ (([idleInput] : List FrameInput).foldl frameStep idWorld).player.camera_pitch ∧
      (([idleInput] : List FrameInput).foldl frameStep idWorld).player.camera_pitch ≤ toRadians 179) ∧
     (5 ≤ (([idleInput] : List FrameInput).foldl frameStep idWorld).player.camera_distance ∧
      (([idleInput] : List FrameInput).foldl frameStep idWorld).player.camera_distance ≤ 30)) :=
  ⟨by simp, clampInvariant.2 idWorld [idleInput] (by simp)⟩

/-- C7: Zoom integration and clamp — each frame the camera distance becomes
`min (max (d - zoom * dt * 10) 5) 30`, and in particular from distance 20 a
frame with a single wheel event of 5 at dt = 1 drops it by 50 and the clamp
yields exactly 5. -/
theorem zoomIntegrationClamp :
    (∀ (w : World) (dt : ℝ) (motion : List MouseMotion)
        (wheel : List MouseWheel) (keys : Keys),
      (update_player dt keys (process_mouse_events dt motion wheel w)).player.camera_distance
        = min (max (w.player.camera_distance - aggregatedZoom wheel * dt * zoom_sense) 5) 30) ∧
    (update_player 1 noKeys
        (process_mouse_events 1 [] [⟨5⟩] idWorld)).player.camera_distance = 5 := by
  have hgen : ∀ (w : World) (dt : ℝ) (motion : List MouseMotion)
      (wheel : List MouseWheel) (keys : Keys),
      (update_player dt keys (process_mouse_events dt motion wheel w)).player.camera_distance
        = min (max (w.player.camera_distance - aggregatedZoom wheel * dt * zoom_sense) 5) 30 := by
    intro w dt motion wheel keys
    rw [update_player_distance]
    simp [process_mouse_events, clampDistance]
  refine ⟨hgen, ?_⟩
  rw [hgen]
  have hz : aggregatedZoom [⟨5⟩] = 5 := rfl
  have hd : idWorld.player.camera_distance = 20 := rfl
  rw [hz, hd]
  norm_num [zoom_sense]

/-- C10: Frame separation — `process_mouse_events` leaves the player's
translation, rotation, transform, camera reference and both camera component
tables untouched (it modifies only the yaw/pitch/distance scalars), while
`update_player` never modifies `yaw` or the camera reference. -/
theorem frameSeparation (dt : ℝ) (motion : List MouseMotion)
    (wheel : List MouseWheel) (keys : Keys) (w : World) :
    ((process_mouse_events dt motion wheel w).playerTranslation = w.playerTranslation ∧
     (process_mouse_events dt motion wheel w).playerRotation = w.playerRotation ∧
     (process_mouse_events dt motion wheel w).playerTransform = w.playerTransform ∧
     (process_mouse_events dt motion wheel w).player.camera_entity = w.player.camera_entity ∧
     (∀ i, (process_mouse_events dt motion wheel w).camTranslation i = w.camTranslation i) ∧
     (∀ i, (process_mouse_events dt motion wheel w).camRotation i = w.camRotation i)) ∧
    ((update_player dt keys w).player.yaw = w.player.yaw ∧
     (update_player dt keys w).player.camera_entity = w.player.camera_entity) := by
  refine ⟨⟨rfl, rfl, rfl, rfl, fun i => rfl, fun i => rfl⟩,
    update_player_yaw dt keys w, update_player_camera_entity dt keys w⟩

/-- C5: Movement cancellation — when each opposing pair is pressed (or
released) together, the ±1 contributions cancel, the intent vector is zero,
and the frame leaves the player's position unchanged. -/
theorem movementCancellation (dt : ℝ) (keys : Keys) (w : World)
    (hWS : keys.keyW = keys.keyS) (hAD : keys.keyA = keys.keyD) :
    movementIntent keys = Vec2.zero ∧
    (update_player dt keys w).playerTranslation = w.playerTranslation := by
  obtain ⟨kw, ks, ka, kd⟩ := keys
  simp only at hWS hAD
  subst hWS hAD
  have hintent : movementIntent ⟨kw, kw, ka, ka⟩ = Vec2.zero := by
    cases kw <;> cases ka <;> simp [movementIntent, Vec2.zero]
  refine ⟨hintent, ?_⟩
  rw [update_player_translation]
  unfold movedTranslation scaledMovement
  rw [hintent]
  obtain ⟨tx, ty, tz⟩ := w.playerTranslation
  simp [Vec2.zero, Vec2.scale, Vec3.scale, Vec3.add, Vec3.neg, Vec4.truncate]

/-- C5 witness: with all four keys held and dt = 1 in the set-up world, the
intent cancels to zero and the position does not move. -/
theorem movementCancellation_witness :
    allKeys.keyW = allKeys.keyS ∧ allKeys.keyA = allKeys.keyD ∧
    (movementIntent allKeys = Vec2.zero ∧
      (update_player 1 allKeys idWorld).playerTranslation = idWorld.playerTranslation) :=
  ⟨rfl, rfl, movementCancellation 1 allKeys idWorld rfl rfl⟩

/-- C9: Heading-independence of the camera — two updates differing only in
the player's accumulated yaw write the same camera local position table; the
placement formula reads only `camera_pitch` and `camera_distance`. -/
theorem headingIndependence (dt : ℝ) (keys : Keys) (w : World) (yawAlt : ℝ) :
    ∀ i, (update_player dt keys
        { w with player := { w.player with yaw := yawAlt } }).camTranslation i
      = (update_player dt keys w).camTranslation i := by
  intro i
  cases hE : w.player.camera_entity with
  | none => simp [update_player, hE]
  | some e =>
    cases hT : w.camTranslation e <;>
      simp [update_player, hE, hT]

/-- C9 witness: replacing the set-up world's yaw by 1 leaves the camera
translation table of the update's output unchanged at every entity id. -/
theorem headingIndependence_witness :
    ∀ i, (update_player 1 noKeys
        { idWorld with player := { idWorld.player with yaw := 1 } }).camTranslation i
      = (update_player 1 noKeys idWorld).camTranslation i :=
  headingIndependence 1 noKeys idWorld 1

/-- C3 counterexample: the basis columns are truncated from `Vec4` to `Vec3`
by dropping the homogeneous `w` component, NOT by discarding the vertical
component — with a transform whose z basis column is (0, 1, 0, 0), one frame
of pressing W at dt = 1 changes the player's vertical position. -/
theorem verticalNotDiscarded :
    (update_player 1 keysWOnly pitchedWorld).playerTranslation.y
      ≠ pitchedWorld.playerTranslation.y := by
  rw [update_player_translation]
  show (movedTranslation 1 keysWOnly pitchedWorld.playerTransform
      pitchedWorld.playerTranslation).y ≠ _
  norm_num [movedTranslation, scaledMovement, movementIntent, keysWOnly,
    pitchedWorld, idWorld, Mat4.identity, Vec2.zero, Vec2.scale, Vec3.zero,
    Vec3.scale, Vec3.add, Vec3.neg, Vec4.truncate, move_speed]

/-- C3 amended: the scaled intent is projected onto the transform's z and
negated x basis columns read before this frame's rotation write, truncated
by dropping the `w` component (the vertical `y` is kept); the vertical
position is unchanged provided those basis columns have zero vertical
component, as they do whenever the orientation is a pure yaw rotation. -/
theorem planarMovementProjection (dt : ℝ) (keys : Keys) (w : World)
    (hx : w.playerTransform.xAxis.y = 0) (hz : w.playerTransform.zAxis.y = 0) :
    (update_player dt keys w).playerTranslation
      = w.playerTranslation.add
          ((w.playerTransform.zAxis.truncate.scale (scaledMovement dt keys).y).add
            (w.playerTransform.xAxis.truncate.neg.scale (scaledMovement dt keys).x)) ∧
    (update_player dt keys w).playerTranslation.y = w.playerTranslation.y := by
  rw [update_player_translation]
  refine ⟨rfl, ?_⟩
  simp [movedTranslation, Vec3.add, Vec3.scale, Vec3.neg, Vec4.truncate, hx, hz]

/-- C3 witness: in the set-up world (identity transform, so both basis
columns have zero vertical component) a W+D frame at dt = 1 satisfies the
projection equation and leaves the vertical position at its old value. -/
theorem planarMovementProjection_witness :
    idWorld.playerTransform.xAxis.y = 0 ∧ idWorld.playerTransform.zAxis.y = 0 ∧
    ((update_player 1 keysWD idWorld).playerTranslation
      = idWorld.playerTranslation.add
          ((idWorld.playerTransform.zAxis.truncate.scale (scaledMovement 1 keysWD).y).add
            (idWorld.playerTransform.xAxis.truncate.neg.scale (scaledMovement 1 keysWD).x)) ∧
     (update_player 1 keysWD idWorld).playerTranslation.y
       = idWorld.playerTranslation.y) :=
  ⟨rfl, rfl, planarMovementProjection 1 keysWD idWorld rfl rfl⟩

/-- C2: the normalization never takes effect — glam's `Vec2::normalize`
returns a new vector and line 131 discards it, so with W+D pressed at
dt = 1 from the origin the frame displacement has magnitude 10·√2, while W
alone gives 10; diagonal movement IS faster than axis movement, contrary to
the claim that both magnitudes agree. -/
theorem diagonalMovementNotNormalized :
    Vec3.length (update_player 1 keysWD idWorld).playerTranslation
      = 10 * Real.sqrt 2 ∧
    Vec3.length (update_player 1 keysWOnly idWorld).playerTranslation = 10 ∧
    (10 : ℝ) * Real.sqrt 2 ≠ 10 := by
  have hWD : (update_player 1 keysWD idWorld).playerTranslation = ⟨-10, 0, 10⟩ := by
    rw [update_player_translation]
    norm_num [movedTranslation, scaledMovement, movementIntent, keysWD, idWorld,
      Mat4.identity, Vec2.zero, Vec2.scale, Vec3.zero, Vec3.scale, Vec3.add,
      Vec3.neg, Vec4.truncate, move_speed]
  have hW : (update_player 1 keysWOnly idWorld).playerTranslation = ⟨0, 0, 10⟩ := by
    rw [update_player_translation]
    norm_num [movedTranslation, scaledMovement, movementIntent, keysWOnly, idWorld,
      Mat4.identity, Vec2.zero, Vec2.scale, Vec3.zero, Vec3.scale, Vec3.add,
      Vec3.neg, Vec4.truncate, move_speed]
  refine ⟨?_, ?_, ?_⟩
  · rw [hWD]
    simp only [Vec3.length, Vec3.dot]
    have h200 : (-10 : ℝ) * -10 + 0 * 0 + 10 * 10 = 10 ^ 2 * 2 := by norm_num
    rw [h200, Real.sqrt_mul (by positivity), Real.sqrt_sq (by norm_num)]
  · rw [hW]
    simp only [Vec3.length, Vec3.dot]
    have h100 : (0 : ℝ) * 0 + 0 * 0 + 10 * 10 = 10 ^ 2 := by norm_num
    rw [h100, Real.sqrt_sq (by norm_num)]
  · intro h
    have h1 : Real.sqrt 2 = 1 := by linarith
    have h2 : Real.sqrt 2 ^ 2 = 2 := Real.sq_sqrt (by norm_num)
    rw [h1] at h2
    norm_num at h2

theorem camPos_eq (p d : ℝ) :
    camPos p d = ⟨0, Real.cos p * d, -Real.sin p * d⟩ := by
  have hlen : Vec3.length ⟨0, Real.cos p, -Real.sin p⟩ = 1 := by
    simp only [Vec3.length, Vec3.dot]
    have h : (0 : ℝ) * 0 + Real.cos p * Real.cos p + -Real.sin p * -Real.sin p = 1 := by
      linear_combination Real.sin_sq_add_cos_sq p
    rw [h, Real.sqrt_one]
  unfold camPos Vec3.normalize
  rw [hlen]
  simp [Vec3.scale]

theorem camPos_length (p d : ℝ) (hd : 0 ≤ d) : Vec3.length (camPos p d) = d := by
  rw [camPos_eq]
  simp only [Vec3.length, Vec3.dot]
  have h : (0 : ℝ) * 0 + Real.cos p * d * (Real.cos p * d)
      + -Real.sin p * d * (-Real.sin p * d) = d * d := by
    linear_combination (d * d) * Real.sin_sq_add_cos_sq p
  rw [h, Real.sqrt_mul_self hd]

theorem update_player_camTranslation (dt : ℝ) (keys : Keys) (w : World)
    (e : Nat) (t : Vec3) (hRef : w.player.camera_entity = some e)
    (hT : w.camTranslation e = some t) :
    (update_player dt keys w).camTranslation e
      = some (camPos (clampPitch w.player.camera_pitch)
          (clampDistance w.player.camera_distance)) := by
  simp [update_player, hRef, hT]

/-- C6: Camera orbit radius — after an update in which the camera reference
resolves, the camera's local position is
`normalize (0, cos pitch, -sin pitch) * distance` at the clamped pitch and
distance, and its magnitude equals the updated (clamped) `camera_distance`. -/
theorem cameraOrbitRadius (dt : ℝ) (keys : Keys) (w : World) (e : Nat)
    (t : Vec3) (hRef : w.player.camera_entity = some e)
    (hT : w.camTranslation e = some t) :
    (update_player dt keys w).camTranslation e
      = some (camPos (clampPitch w.player.camera_pitch)
          (clampDistance w.player.camera_distance)) ∧
    Vec3.length (camPos (clampPitch w.player.camera_pitch)
        (clampDistance w.player.camera_distance))
      = (update_player dt keys w).player.camera_distance := by
  refine ⟨update_player_camTranslation dt keys w e t hRef hT, ?_⟩
  rw [update_player_distance]
  exact camPos_length _ _ (le_trans (by norm_num) (clampDistance_mem _).1)

/-- C6 witness: in the set-up world the camera is entity 0 with a resolvable
translation, and one idle update writes the orbit position there. -/
theorem cameraOrbitRadius_witness :
    idWorld.player.camera_entity = some 0 ∧
    idWorld.camTranslation 0 = some Vec3.zero ∧
    ((update_player 1 noKeys idWorld).camTranslation 0
      = some (camPos (clampPitch idWorld.player.camera_pitch)
          (clampDistance idWorld.player.camera_distance)) ∧
     Vec3.length (camPos (clampPitch idWorld.player.camera_pitch)
        (clampDistance idWorld.player.camera_distance))
      = (update_player 1 noKeys idWorld).player.camera_distance) :=
  ⟨rfl, rfl, cameraOrbitRadius 1 noKeys idWorld 0 Vec3.zero rfl rfl⟩

/-- C8: Missing-camera no-op — when the camera reference is `none`, or it
names an entity on which both component lookups fail, the update still
completes as a total function: both camera component tables are left
untouched while the player-side effects (clamping, movement, yaw rotation)
are applied as usual. -/
theorem missingCameraNoOp (dt : ℝ) (keys : Keys) (w : World)
    (h : w.player.camera_entity = none ∨
      ∃ e, w.player.camera_entity = some e ∧
        w.camTranslation e = none ∧ w.camRotation e = none) :
    (∀ i, (update_player dt keys w).camTranslation i = w.camTranslation i) ∧
    (∀ i, (update_player dt keys w).camRotation i = w.camRotation i) ∧
    (update_player dt keys w).player.camera_pitch
      = clampPitch w.player.camera_pitch ∧
    (update_player dt keys w).player.camera_distance
      = clampDistance w.player.camera_distance ∧
    (update_player dt keys w).playerTranslation
      = movedTranslation dt keys w.playerTransform w.playerTranslation ∧
    (update_player dt keys w).playerRotation
      = Quat.fromRotationY (-w.player.yaw) := by
  refine ⟨?_, ?_, update_player_pitch dt keys w, update_player_distance dt keys w,
    update_player_translation dt keys w, update_player_rotation dt keys w⟩ <;>
  · intro i
    rcases h with hNone | ⟨e, hSome, hT, hR⟩
    · simp [update_player, hNone]
    · simp [update_player, hSome, hT, hR]

/-- C8 witness: with the default, unwired `MMOPlayer` (camera reference
`none`) one update leaves both camera tables untouched and still applies the
player-side effects. -/
theorem missingCameraNoOp_witness :
    unwiredWorld.player.camera_entity = none ∧
    ((∀ i, (update_player 1 noKeys unwiredWorld).camTranslation i
        = unwiredWorld.camTranslation i) ∧
     (∀ i, (update_player 1 noKeys unwiredWorld).camRotation i
        = unwiredWorld.camRotation i) ∧
     (update_player 1 noKeys unwiredWorld).player.camera_pitch
        = clampPitch unwiredWorld.player.camera_pitch ∧
     (update_player 1 noKeys unwiredWorld).player.camera_distance
        = clampDistance unwiredWorld.player.camera_distance ∧
     (update_player 1 noKeys unwiredWorld).playerTranslation
        = movedTranslation 1 noKeys unwiredWorld.playerTransform
            unwiredWorld.playerTranslation ∧
     (update_player 1 noKeys unwiredWorld).playerRotation
        = Quat.fromRotationY (-unwiredWorld.player.yaw)) :=
  ⟨rfl, missingCameraNoOp 1 noKeys unwiredWorld (Or.inl rfl)⟩

end
